import Mathlib

/-
Verification of the categorical (C51-style) distributional DQN agent in
agent.py, against its natural-language specification.

The numerical core is embedded shallowly over the rationals: tensors become
functions out of Fin, the vectorized projection of agent.py lines 92-108 is
modelled per batch row (the offset arithmetic of lines 103-104 makes every
index_add write row-local whenever the clamped grid coordinates are in
range, which the preconditions atoms >= 2 and v_min < v_max guarantee).
-/

namespace RainbowAgent

/-- Arguments fixing the support grid: args.atoms, args.V_min, args.V_max
(agent.py lines 15-19). -/
structure SupportArgs where
  atoms : ℕ
  v_min : ℚ
  v_max : ℚ

/-- delta_z = (V_max - V_min) / (atoms - 1), agent.py line 19. -/
def delta_z (A : SupportArgs) : ℚ := (A.v_max - A.v_min) / ((A.atoms : ℚ) - 1)

/-- The support grid torch.linspace(V_min, V_max, atoms), agent.py line 18:
element i is V_min + i * delta_z. -/
def support (A : SupportArgs) (i : ℕ) : ℚ := A.v_min + (i : ℚ) * delta_z A

/-- The scalar inputs of the projection step for one batch row:
the grid, discount, multi-step horizon n, and this row's sampled
return and nonterminal flag (agent.py lines 92-108 operate on these). -/
structure ProjParams where
  A : SupportArgs
  discount : ℚ
  nstep : ℕ
  ret : ℚ
  nonterminal : ℚ

/-- Tz = returns + nonterminals * discount^n * support, agent.py line 92,
for one batch row and source atom j. -/
def Tz (P : ProjParams) (j : ℕ) : ℚ :=
  P.ret + P.nonterminal * P.discount ^ P.nstep * support P.A j

/-- Tz.clamp(min=V_min, max=V_max), agent.py line 93. -/
def TzClamped (P : ProjParams) (j : ℕ) : ℚ :=
  max P.A.v_min (min (Tz P j) P.A.v_max)

/-- b = (Tz - V_min) / delta_z, agent.py line 95. -/
def bcoord (P : ProjParams) (j : ℕ) : ℚ :=
  (TzClamped P j - P.A.v_min) / delta_z P.A

/-- l = b.floor(), agent.py line 96. -/
def lRaw (P : ProjParams) (j : ℕ) : ℤ := ⌊bcoord P j⌋

/-- u = b.ceil(), agent.py line 96. -/
def uRaw (P : ProjParams) (j : ℕ) : ℤ := ⌈bcoord P j⌉

/-- l[(u > 0) * (l == u)] -= 1, agent.py line 98: the in-place decrement of l
where u is positive and l equals u. -/
def lFix (P : ProjParams) (j : ℕ) : ℤ :=
  if 0 < uRaw P j ∧ lRaw P j = uRaw P j then lRaw P j - 1 else lRaw P j

/-- u[(l < (atoms - 1)) * (l == u)] += 1, agent.py line 99.  This reads the
ALREADY MUTATED l of line 98, so the condition uses lFix, not lRaw. -/
def uFix (P : ProjParams) (j : ℕ) : ℤ :=
  if lFix P j < (P.A.atoms : ℤ) - 1 ∧ lFix P j = uRaw P j then uRaw P j + 1
  else uRaw P j

/-- The two index_add accumulations of agent.py lines 105-108, per batch row:
m[l_j] += pns_a[j] * (u_j - b_j) and m[u_j] += pns_a[j] * (b_j - l_j),
summed over all source atoms j that land on destination atom i. -/
def projRow (P : ProjParams) (pns_a : Fin P.A.atoms → ℚ) :
    Fin P.A.atoms → ℚ :=
  fun i =>
    (∑ j : Fin P.A.atoms,
      if lFix P j = (i : ℤ) then pns_a j * ((uFix P j : ℚ) - bcoord P j) else 0)
    + (∑ j : Fin P.A.atoms,
      if uFix P j = (i : ℤ) then pns_a j * (bcoord P j - (lFix P j : ℚ)) else 0)

/-- delta_z is positive when the grid is nondegenerate. -/
theorem delta_z_pos (A : SupportArgs) (h2 : 2 ≤ A.atoms) (hv : A.v_min < A.v_max) :
    0 < delta_z A := by
  have ha : (0 : ℚ) < (A.atoms : ℚ) - 1 := by
    have : (2 : ℚ) ≤ (A.atoms : ℚ) := by exact_mod_cast h2
    linarith
  exact div_pos (by linarith) ha

/-- The clamped grid coordinate lies in [0, atoms - 1]. -/
theorem bcoord_bounds (P : ProjParams) (h2 : 2 ≤ P.A.atoms)
    (hv : P.A.v_min < P.A.v_max) (j : ℕ) :
    0 ≤ bcoord P j ∧ bcoord P j ≤ (P.A.atoms : ℚ) - 1 := by
  have hdz : 0 < delta_z P.A := delta_z_pos P.A h2 hv
  have hlo : P.A.v_min ≤ TzClamped P j := le_max_left _ _
  have hhi : TzClamped P j ≤ P.A.v_max :=
    max_le (le_of_lt hv) (min_le_right _ _)
  constructor
  · exact div_nonneg (by linarith) (le_of_lt hdz)
  · rw [bcoord, div_le_iff₀ hdz]
    have ha : (0 : ℚ) < (P.A.atoms : ℚ) - 1 := by
      have : (2 : ℚ) ≤ (P.A.atoms : ℚ) := by exact_mod_cast h2
      linarith
    have hdz_eq : ((P.A.atoms : ℚ) - 1) * delta_z P.A = P.A.v_max - P.A.v_min := by
      rw [delta_z, mul_comm, div_mul_cancel₀ _ (ne_of_gt ha)]
    linarith

/-- After the two fixes, u = l + 1: mass is always split across two adjacent
destination indices. -/
theorem uFix_eq_lFix_add_one (P : ProjParams) (h2 : 2 ≤ P.A.atoms)
    (hv : P.A.v_min < P.A.v_max) (j : ℕ) :
    uFix P j = lFix P j + 1 := by
  have hb := bcoord_bounds P h2 hv j
  have hfc : lRaw P j ≤ uRaw P j := Int.floor_le_ceil _
  have hcf : uRaw P j ≤ lRaw P j + 1 := Int.ceil_le_floor_add_one _
  have hu0 : 0 ≤ uRaw P j := by
    have hq : (0 : ℚ) ≤ (uRaw P j : ℚ) := le_trans hb.1 (Int.le_ceil _)
    exact_mod_cast hq
  have hA : (2 : ℤ) ≤ (P.A.atoms : ℤ) := by exact_mod_cast h2
  unfold uFix lFix
  split_ifs <;> omega

/-- The fixed neighbors stay inside [0, atoms - 1]. -/
theorem fix_bounds (P : ProjParams) (h2 : 2 ≤ P.A.atoms)
    (hv : P.A.v_min < P.A.v_max) (j : ℕ) :
    0 ≤ lFix P j ∧ uFix P j ≤ (P.A.atoms : ℤ) - 1 := by
  have hb := bcoord_bounds P h2 hv j
  have hl0 : 0 ≤ lRaw P j := Int.floor_nonneg.mpr hb.1
  have hu1 : uRaw P j ≤ (P.A.atoms : ℤ) - 1 := by
    rw [uRaw, Int.ceil_le]
    push_cast
    exact hb.2
  have hfc : lRaw P j ≤ uRaw P j := Int.floor_le_ceil _
  unfold uFix lFix
  split_ifs <;> omega

/-- The fixed lower neighbor never exceeds the grid coordinate. -/
theorem lFix_le_bcoord (P : ProjParams) (j : ℕ) :
    (lFix P j : ℚ) ≤ bcoord P j := by
  have h1 : lFix P j ≤ lRaw P j := by
    unfold lFix
    split_ifs <;> omega
  have h2 : (lRaw P j : ℚ) ≤ bcoord P j := Int.floor_le _
  have h1q : (lFix P j : ℚ) ≤ (lRaw P j : ℚ) := by exact_mod_cast h1
  linarith

/-- The grid coordinate never exceeds the fixed upper neighbor. -/
theorem bcoord_le_uFix (P : ProjParams) (j : ℕ) :
    bcoord P j ≤ (uFix P j : ℚ) := by
  have h1 : uRaw P j ≤ uFix P j := by
    unfold uFix
    split_ifs <;> omega
  have h2 : bcoord P j ≤ (uRaw P j : ℚ) := Int.le_ceil _
  have h1q : (uRaw P j : ℚ) ≤ (uFix P j : ℚ) := by exact_mod_cast h1
  linarith

/-- Summing an indicator of one in-range integer index over the whole row
collects exactly the indicated value. -/
theorem sum_ite_index {n : ℕ} (c : ℤ) (x : ℚ) (h0 : 0 ≤ c) (h1 : c < (n : ℤ)) :
    (∑ i : Fin n, if c = (i : ℤ) then x else 0) = x := by
  have hc : c.toNat < n := by omega
  have hpos : c = ((⟨c.toNat, hc⟩ : Fin n) : ℤ) := by
    show c = ((c.toNat : ℕ) : ℤ)
    omega
  rw [Finset.sum_eq_single_of_mem (⟨c.toNat, hc⟩ : Fin n) (Finset.mem_univ _)
    (by
      intro b _ hb
      rw [if_neg]
      exact fun hcb => hb (Fin.ext (by omega)))]
  rw [if_pos hpos]

/-- Mass conservation of the projection: each row of m sums to the row sum
of pns_a. -/
theorem projRow_sum (P : ProjParams) (h2 : 2 ≤ P.A.atoms)
    (hv : P.A.v_min < P.A.v_max) (pns_a : Fin P.A.atoms → ℚ) :
    (∑ i : Fin P.A.atoms, projRow P pns_a i) = ∑ j : Fin P.A.atoms, pns_a j := by
  have hA : (∑ i : Fin P.A.atoms, ∑ j : Fin P.A.atoms,
      if lFix P j = (i : ℤ) then pns_a j * ((uFix P j : ℚ) - bcoord P j) else 0)
      = ∑ j : Fin P.A.atoms, pns_a j * ((uFix P j : ℚ) - bcoord P j) := by
    rw [Finset.sum_comm]
    apply Finset.sum_congr rfl
    intro j _
    have hbnd := fix_bounds P h2 hv j
    have hul := uFix_eq_lFix_add_one P h2 hv j
    exact sum_ite_index (lFix P j) _ hbnd.1 (by omega)
  have hB : (∑ i : Fin P.A.atoms, ∑ j : Fin P.A.atoms,
      if uFix P j = (i : ℤ) then pns_a j * (bcoord P j - (lFix P j : ℚ)) else 0)
      = ∑ j : Fin P.A.atoms, pns_a j * (bcoord P j - (lFix P j : ℚ)) := by
    rw [Finset.sum_comm]
    apply Finset.sum_congr rfl
    intro j _
    have hbnd := fix_bounds P h2 hv j
    have hul := uFix_eq_lFix_add_one P h2 hv j
    exact sum_ite_index (uFix P j) _ (by omega) (by omega)
  unfold projRow
  rw [Finset.sum_add_distrib, hA, hB, ← Finset.sum_add_distrib]
  apply Finset.sum_congr rfl
  intro j _
  have hul := uFix_eq_lFix_add_one P h2 hv j
  have hcast : (uFix P j : ℚ) = (lFix P j : ℚ) + 1 := by exact_mod_cast hul
  rw [hcast]
  ring

/-- Non-negativity of the projection: every entry of m is a sum of products
of non-negative masses with non-negative interpolation weights. -/
theorem projRow_nonneg (P : ProjParams) (pns_a : Fin P.A.atoms → ℚ)
    (hp : ∀ j, 0 ≤ pns_a j) (i : Fin P.A.atoms) :
    0 ≤ projRow P pns_a i := by
  unfold projRow
  apply add_nonneg
  · apply Finset.sum_nonneg
    intro j _
    split_ifs
    · exact mul_nonneg (hp j) (by linarith [bcoord_le_uFix P j])
    · exact le_refl 0
  · apply Finset.sum_nonneg
    intro j _
    split_ifs
    · exact mul_nonneg (hp j) (by linarith [lFix_le_bcoord P j])
    · exact le_refl 0

/-- C1: for every batch row, under atoms >= 2, v_min < v_max and
non-negative pns_a, the projected target m of agent.py lines 92-108 keeps
the row mass, sum m = sum pns_a, and every entry of m is non-negative. -/
theorem claim_C1_projection_mass_and_nonneg (P : ProjParams)
    (pns_a : Fin P.A.atoms → ℚ) (h2 : 2 ≤ P.A.atoms)
    (hv : P.A.v_min < P.A.v_max) (hp : ∀ j, 0 ≤ pns_a j) :
    (∑ i : Fin P.A.atoms, projRow P pns_a i) = (∑ j : Fin P.A.atoms, pns_a j)
      ∧ ∀ i : Fin P.A.atoms, 0 ≤ projRow P pns_a i :=
  ⟨projRow_sum P h2 hv pns_a, fun i => projRow_nonneg P pns_a hp i⟩

/-- A 3-atom grid on [-1, 1] with a simplex row: nonterminal row. -/
abbrev projExA : ProjParams := ⟨⟨3, -1, 1⟩, 1/2, 2, 3/10, 1⟩

/-- The mass row (1/3, 1/3, 1/3) used to instantiate C1. -/
def projExAMass : Fin 3 → ℚ := fun _ => 1/3

/-- Witness for C1 at a concrete nonterminal row. -/
theorem claim_C1_projection_mass_and_nonneg_witness :
    (∑ i : Fin 3, projRow projExA projExAMass i)
        = (∑ j : Fin 3, projExAMass j)
      ∧ 0 ≤ projRow projExA projExAMass (0 : Fin 3) := by
  have h := claim_C1_projection_mass_and_nonneg projExA projExAMass
    (by norm_num) (by norm_num) (fun j => by norm_num [projExAMass])
  exact ⟨h.1, h.2 0⟩

/-- C2 counterexample inputs: the end-to-end example of the spec, a 3-atom
grid on [-1, 1], one terminal sample with returns 0. -/
abbrev projEx3 : ProjParams := ⟨⟨3, -1, 1⟩, 99/100, 3, 0, 0⟩

/-- pns_a = [0, 1, 0]: all mass on atom index 1 (value 0). -/
def projEx3Mass : Fin 3 → ℚ := ![0, 1, 0]

/-- C2 counterexample inputs: 5-atom grid on [-2, 2], terminal sample with
returns 0, so b lands exactly on atom index 2 for every source atom. -/
abbrev projEx5 : ProjParams := ⟨⟨5, -2, 2⟩, 99/100, 3, 0, 0⟩

/-- pns_a = [0, 0, 1, 0, 0]: all mass on atom index 2 (value 0). -/
def projEx5Mass : Fin 5 → ℚ := ![0, 0, 1, 0, 0]

/-- C2 is false on the code: in the spec's own end-to-end example
(atoms = 3, v_min = -1, v_max = 1, terminal, returns 0, pns_a = [0,1,0])
the projected target is [0, 1, 0], not the claimed [0.5, 0, 0.5], and in the
5-atom case with b landing exactly on atom index 2 the mass stays entirely
on atom 2 with nothing on atoms 1 and 3. -/
theorem claim_C2_counterexample :
    ¬ (projRow projEx3 projEx3Mass (0 : Fin 3) = 1/2
        ∧ projRow projEx3 projEx3Mass (1 : Fin 3) = 0
        ∧ projRow projEx3 projEx3Mass (2 : Fin 3) = 1/2)
    ∧ projRow projEx3 projEx3Mass (0 : Fin 3) = 0
    ∧ projRow projEx3 projEx3Mass (1 : Fin 3) = 1
    ∧ projRow projEx3 projEx3Mass (2 : Fin 3) = 0
    ∧ projRow projEx5 projEx5Mass (1 : Fin 5) = 0
    ∧ projRow projEx5 projEx5Mass (2 : Fin 5) = 1
    ∧ projRow projEx5 projEx5Mass (3 : Fin 5) = 0 := by
  have e0 : projRow projEx3 projEx3Mass (0 : Fin 3) = 0 := by
    norm_num [projRow, Fin.sum_univ_succ, lFix, uFix, lRaw, uRaw, bcoord,
      TzClamped, Tz, support, delta_z, projEx3Mass] <;> decide
  have e1 : projRow projEx3 projEx3Mass (1 : Fin 3) = 1 := by
    norm_num [projRow, Fin.sum_univ_succ, lFix, uFix, lRaw, uRaw, bcoord,
      TzClamped, Tz, support, delta_z, projEx3Mass] <;> decide
  have e2 : projRow projEx3 projEx3Mass (2 : Fin 3) = 0 := by
    norm_num [projRow, Fin.sum_univ_succ, lFix, uFix, lRaw, uRaw, bcoord,
      TzClamped, Tz, support, delta_z, projEx3Mass] <;> decide
  have f1 : projRow projEx5 projEx5Mass (1 : Fin 5) = 0 := by
    norm_num [projRow, Fin.sum_univ_succ, lFix, uFix, lRaw, uRaw, bcoord,
      TzClamped, Tz, support, delta_z, projEx5Mass] <;> decide
  have f2 : projRow projEx5 projEx5Mass (2 : Fin 5) = 1 := by
    norm_num [projRow, Fin.sum_univ_succ, lFix, uFix, lRaw, uRaw, bcoord,
      TzClamped, Tz, support, delta_z, projEx5Mass] <;> decide
  have f3 : projRow projEx5 projEx5Mass (3 : Fin 5) = 0 := by
    norm_num [projRow, Fin.sum_univ_succ, lFix, uFix, lRaw, uRaw, bcoord,
      TzClamped, Tz, support, delta_z, projEx5Mass] <;> decide
  refine ⟨?_, e0, e1, e2, f1, f2, f3⟩
  rintro ⟨-, hb, -⟩
  rw [e1] at hb
  norm_num at hb

/-- C2 amended: when the grid coordinate b lands exactly on atom index
k > 0 (in particular on any interior atom), line 98 decrements l to k - 1
and line 99 then leaves u = k, so the mass is assigned to the two distinct
atoms k - 1 and k with interpolation weights u - b = 0 and b - l = 1:
the whole mass lands on atom k itself (it is not split across k - 1 and
k + 1, and the end-to-end example projects [0,1,0] to [0,1,0]). -/
theorem claim_C2_degenerate_neighbor_fix (P : ProjParams) (j : ℕ) (k : ℤ)
    (hk : bcoord P j = (k : ℚ)) (h0 : 0 < k) :
    lFix P j = k - 1 ∧ uFix P j = k
      ∧ (uFix P j : ℚ) - bcoord P j = 0
      ∧ bcoord P j - (lFix P j : ℚ) = 1 := by
  have hl : lRaw P j = k := by
    rw [lRaw, hk, Int.floor_intCast]
  have hu : uRaw P j = k := by
    rw [uRaw, hk, Int.ceil_intCast]
  have hlf : lFix P j = k - 1 := by
    unfold lFix
    rw [hl, hu, if_pos ⟨h0, rfl⟩]
  have huf : uFix P j = k := by
    unfold uFix
    rw [hlf, hu, if_neg (by omega)]
  refine ⟨hlf, huf, ?_, ?_⟩
  · rw [huf, hk]
    ring
  · rw [hlf, hk]
    push_cast
    ring

/-- Witness for the amended C2 at the end-to-end example: b = 1 exactly,
so l becomes 0, u stays 1, and the weights put all mass on atom 1. -/
theorem claim_C2_degenerate_neighbor_fix_witness :
    lFix projEx3 0 = 0 ∧ uFix projEx3 0 = 1
      ∧ (uFix projEx3 0 : ℚ) - bcoord projEx3 0 = 0
      ∧ bcoord projEx3 0 - (lFix projEx3 0 : ℚ) = 1 := by
  have h := claim_C2_degenerate_neighbor_fix projEx3 0 1
    (by norm_num [bcoord, TzClamped, Tz, support, delta_z]) (by norm_num)
  simpa using h

/-- C5: when the unclamped Bellman value exceeds v_max at every atom, the
clamp of agent.py line 93 saturates the whole row to the final atom: m
carries the entire row mass at index atoms - 1 and is zero elsewhere. -/
theorem claim_C5_boundary_clamp_to_last_atom (P : ProjParams)
    (pns_a : Fin P.A.atoms → ℚ) (h2 : 2 ≤ P.A.atoms)
    (hv : P.A.v_min < P.A.v_max) (hp : ∀ j, 0 ≤ pns_a j)
    (hbig : ∀ j : Fin P.A.atoms, P.A.v_max < Tz P j) :
    projRow P pns_a ⟨P.A.atoms - 1, by omega⟩
        = (∑ j : Fin P.A.atoms, pns_a j)
      ∧ ∀ i : Fin P.A.atoms, (i : ℕ) ≠ P.A.atoms - 1 → projRow P pns_a i = 0 := by
  have hA : (2 : ℤ) ≤ (P.A.atoms : ℤ) := by exact_mod_cast h2
  have haq : (0 : ℚ) < (P.A.atoms : ℚ) - 1 := by
    have : (2 : ℚ) ≤ (P.A.atoms : ℚ) := by exact_mod_cast h2
    linarith
  have hne : P.A.v_max - P.A.v_min ≠ 0 := by linarith
  have hbc : ∀ j : Fin P.A.atoms, bcoord P j = (P.A.atoms : ℚ) - 1 := by
    intro j
    have hcl : TzClamped P j = P.A.v_max := by
      rw [TzClamped, min_eq_right (le_of_lt (hbig j)), max_eq_right (le_of_lt hv)]
    rw [bcoord, hcl, delta_z, div_div_eq_mul_div, mul_comm, mul_div_assoc,
      div_self hne, mul_one]
  have hlr : ∀ j : Fin P.A.atoms, lRaw P j = (P.A.atoms : ℤ) - 1 := by
    intro j
    have hq : ((P.A.atoms : ℚ) - 1) = (((P.A.atoms : ℤ) - 1 : ℤ) : ℚ) := by
      push_cast
      ring
    rw [lRaw, hbc j, hq, Int.floor_intCast]
  have hur : ∀ j : Fin P.A.atoms, uRaw P j = (P.A.atoms : ℤ) - 1 := by
    intro j
    have hq : ((P.A.atoms : ℚ) - 1) = (((P.A.atoms : ℤ) - 1 : ℤ) : ℚ) := by
      push_cast
      ring
    rw [uRaw, hbc j, hq, Int.ceil_intCast]
  have hlf : ∀ j : Fin P.A.atoms, lFix P j = (P.A.atoms : ℤ) - 2 := by
    intro j
    unfold lFix
    rw [hlr j, hur j, if_pos ⟨by omega, rfl⟩]
    omega
  have huf : ∀ j : Fin P.A.atoms, uFix P j = (P.A.atoms : ℤ) - 1 := by
    intro j
    unfold uFix
    rw [hlf j, hur j, if_neg (by omega)]
  have hwl : ∀ j : Fin P.A.atoms,
      (uFix P j : ℚ) - bcoord P j = 0 := by
    intro j
    rw [huf j, hbc j]
    push_cast
    ring
  have hwu : ∀ j : Fin P.A.atoms,
      bcoord P j - (lFix P j : ℚ) = 1 := by
    intro j
    rw [hlf j, hbc j]
    push_cast
    ring
  have hfirst : ∀ i : Fin P.A.atoms,
      (∑ j : Fin P.A.atoms,
        if lFix P j = (i : ℤ) then pns_a j * ((uFix P j : ℚ) - bcoord P j) else 0)
      = 0 := by
    intro i
    apply Finset.sum_eq_zero
    intro j _
    rw [hwl j, mul_zero]
    split_ifs <;> rfl
  constructor
  · rw [projRow, hfirst, zero_add]
    apply Finset.sum_congr rfl
    intro j _
    rw [hwu j, mul_one, if_pos]
    rw [huf j]
    have hlt : (P.A.atoms - 1 : ℕ) < P.A.atoms := by omega
    show (P.A.atoms : ℤ) - 1 = ((P.A.atoms - 1 : ℕ) : ℤ)
    omega
  · intro i hne2
    rw [projRow, hfirst, zero_add]
    apply Finset.sum_eq_zero
    intro j _
    rw [if_neg]
    rw [huf j]
    have := i.isLt
    omega

/-- A 2-atom grid on [0, 1] with returns 5: every Tz exceeds v_max. -/
abbrev projExBig : ProjParams := ⟨⟨2, 0, 1⟩, 1/2, 1, 5, 1⟩

/-- The mass row (1/2, 1/2) used to instantiate C5. -/
def projExBigMass : Fin 2 → ℚ := fun _ => 1/2

/-- Witness for C5: with returns 5 on a [0, 1] grid, the whole unit mass is
projected onto the final atom. -/
theorem claim_C5_boundary_clamp_to_last_atom_witness :
    projRow projExBig projExBigMass (⟨2 - 1, by omega⟩ : Fin 2)
        = (∑ j : Fin 2, projExBigMass j)
      ∧ projRow projExBig projExBigMass (0 : Fin 2) = 0 := by
  have h := claim_C5_boundary_clamp_to_last_atom projExBig projExBigMass
    (by norm_num) (by norm_num) (fun j => by norm_num [projExBigMass])
    (by
      intro j
      have hj := j.isLt
      interval_cases hj2 : (j : ℕ) <;>
        norm_num [Tz, support, delta_z])
  exact ⟨h.1, h.2 0 (by norm_num)⟩

/-
The learning step (agent.py lines 71-116) and the target synchronizer
(lines 118-119).  Networks are modelled extensionally: a NetModel maps
parameters, a noise sample and one state to a per-action categorical
distribution (plain and log form), applied pointwise across the batch.
The backward pass, gradient clipping and optimiser step (lines 111-114)
are abstracted as one update function consuming the backpropagated scalar:
the optimiser is registered with the online parameters only (line 54) and
the target parameters carry requires_grad = False (lines 50-51), so this
update touches only the online parameters and the optimiser state.
-/

/-- Parameters, noise and optimiser state owned by the Agent: online_net,
target_net (agent.py lines 26, 46) and self.optimiser (lines 53-56). -/
structure AgentState (Par NZ O : Type) where
  onlineParams : Par
  targetParams : Par
  onlineNoise : NZ
  targetNoise : NZ
  optState : O

/-- A DQN as a pure function of parameters and noise: forward (and its
log=True variant) produces per-action atom probabilities for one state. -/
structure NetModel (Par NZ S : Type) (nA atoms : ℕ) where
  forward : Par → NZ → S → Fin (nA + 1) → Fin atoms → ℚ
  logForward : Par → NZ → S → Fin (nA + 1) → Fin atoms → ℚ

/-- The transition batch returned by mem.sample (agent.py line 73). -/
structure Batch (B nA : ℕ) (S : Type) where
  idxs : Fin B → ℕ
  states : Fin B → S
  actions : Fin B → Fin (nA + 1)
  returns : Fin B → ℚ
  next_states : Fin B → S
  nonterminals : Fin B → ℚ
  weights : Fin B → ℚ

/-- Hyperparameters of the learning step: the grid, args.discount and the
multi-step horizon self.n (agent.py lines 21-22). -/
structure Hyper where
  A : SupportArgs
  discount : ℚ
  multi_step : ℕ

/-- Left-to-right scan keeping the current best index, replacing it only on
a strictly larger value: torch.argmax keeps the first maximal index. -/
def argmaxAux {n : ℕ} (f : Fin n → ℚ) : List (Fin n) → Fin n → Fin n
  | [], best => best
  | i :: rest, best => argmaxAux f rest (if f best < f i then i else best)

/-- argmax over the action axis (agent.py line 84). -/
def argmaxFin {n : ℕ} (f : Fin (n + 1) → ℚ) : Fin (n + 1) :=
  argmaxAux f (List.finRange (n + 1)) 0

/-- The scan result dominates the seed and every scanned index. -/
theorem argmaxAux_spec {n : ℕ} (f : Fin n → ℚ) (L : List (Fin n)) (b : Fin n) :
    f b ≤ f (argmaxAux f L b) ∧ ∀ i ∈ L, f i ≤ f (argmaxAux f L b) := by
  induction L generalizing b with
  | nil =>
    exact ⟨le_refl _, by simp⟩
  | cons i rest ih =>
    have h := ih (if f b < f i then i else b)
    constructor
    · refine le_trans ?_ h.1
      split_ifs with hbi
      · exact le_of_lt hbi
      · exact le_refl _
    · intro x hx
      rcases List.mem_cons.mp hx with hx1 | hx2
      · subst hx1
        refine le_trans ?_ h.1
        split_ifs with hbi
        · exact le_refl _
        · exact le_of_not_lt hbi
      · exact h.2 x hx2

/-- argmaxFin attains the maximum. -/
theorem argmaxFin_max {n : ℕ} (f : Fin (n + 1) → ℚ) (a : Fin (n + 1)) :
    f a ≤ f (argmaxFin f) :=
  (argmaxAux_spec f (List.finRange (n + 1)) 0).2 a (List.mem_finRange a)

/-- dns = (support expanded over pns) * pns summed over atoms, agent.py
lines 81-84: expected value per next-state action under the ONLINE net. -/
def dns {Par NZ O S : Type} {nA B : ℕ} (H : Hyper)
    (net : NetModel Par NZ S nA H.A.atoms) (ag : AgentState Par NZ O)
    (batch : Batch B nA S) : Fin B → Fin (nA + 1) → ℚ :=
  fun b a => ∑ i : Fin H.A.atoms,
    support H.A i * net.forward ag.onlineParams ag.onlineNoise (batch.next_states b) a i

/-- argmax_indices_ns = dns.sum(2).argmax(1), agent.py line 84. -/
def argmax_indices_ns {Par NZ O S : Type} {nA B : ℕ} (H : Hyper)
    (net : NetModel Par NZ S nA H.A.atoms) (ag : AgentState Par NZ O)
    (batch : Batch B nA S) : Fin B → Fin (nA + 1) :=
  fun b => argmaxFin (dns H net ag batch b)

/-- pns_a = target-net probabilities at the online argmax action, after the
target noise is resampled (agent.py lines 85-88): the forward pass uses the
FRESH noise sample, not the stale one held in the agent state. -/
def pns_a {Par NZ O S : Type} {nA B : ℕ} (H : Hyper)
    (net : NetModel Par NZ S nA H.A.atoms) (ag : AgentState Par NZ O)
    (batch : Batch B nA S) (freshNoise : NZ) : Fin B → Fin H.A.atoms → ℚ :=
  fun b => net.forward ag.targetParams freshNoise (batch.next_states b)
    (argmax_indices_ns H net ag batch b)

/-- log_ps_a = log_ps[range(batch_size), actions], agent.py lines 76-77. -/
def log_ps_a {Par NZ O S : Type} {nA atoms B : ℕ}
    (net : NetModel Par NZ S nA atoms) (ag : AgentState Par NZ O)
    (batch : Batch B nA S) : Fin B → Fin atoms → ℚ :=
  fun b => net.logForward ag.onlineParams ag.onlineNoise (batch.states b)
    (batch.actions b)

/-- The projected target m of agent.py lines 92-108, one row per sample. -/
def projTargets {Par NZ O S : Type} {nA B : ℕ} (H : Hyper)
    (net : NetModel Par NZ S nA H.A.atoms) (ag : AgentState Par NZ O)
    (batch : Batch B nA S) (freshNoise : NZ) : Fin B → Fin H.A.atoms → ℚ :=
  fun b => projRow ⟨H.A, H.discount, H.multi_step, batch.returns b, batch.nonterminals b⟩
    (pns_a H net ag batch freshNoise b)

/-- loss = -torch.sum(m * log_ps_a, 1), agent.py line 110: the per-sample
cross-entropy. -/
def lossSamples {Par NZ O S : Type} {nA B : ℕ} (H : Hyper)
    (net : NetModel Par NZ S nA H.A.atoms) (ag : AgentState Par NZ O)
    (batch : Batch B nA S) (freshNoise : NZ) : Fin B → ℚ :=
  fun b => -∑ i : Fin H.A.atoms,
    projTargets H net ag batch freshNoise b i * log_ps_a net ag batch b i

/-- (weights * loss).mean(), agent.py line 112: the scalar that is
backpropagated. -/
def lossObjective {Par NZ O S : Type} {nA B : ℕ} (H : Hyper)
    (net : NetModel Par NZ S nA H.A.atoms) (ag : AgentState Par NZ O)
    (batch : Batch B nA S) (freshNoise : NZ) : ℚ :=
  (∑ b : Fin B, batch.weights b * lossSamples H net ag batch freshNoise b) / (B : ℚ)

/-- What a learn call produces: the mutated agent state and the calls made
to the sampling collaborator (mem.update_priorities, agent.py line 116). -/
structure LearnResult (Par NZ O : Type) (B : ℕ) where
  agent : AgentState Par NZ O
  priorityCalls : List ((Fin B → ℕ) × (Fin B → ℚ))

/-- The learning step, agent.py lines 71-116.  gradUpdate abstracts
zero_grad / backward / clip_grad_norm_ / optimiser.step (lines 111-114),
consuming the backpropagated scalar and producing new online parameters
and optimiser state; the target parameters pass through untouched, and the
target noise becomes the fresh sample drawn at line 85. -/
def learn {Par NZ O S : Type} {nA B : ℕ} (H : Hyper)
    (net : NetModel Par NZ S nA H.A.atoms)
    (gradUpdate : Par → O → ℚ → Par × O) (ag : AgentState Par NZ O)
    (batch : Batch B nA S) (freshNoise : NZ) : LearnResult Par NZ O B :=
  let stepped := gradUpdate ag.onlineParams ag.optState
    (lossObjective H net ag batch freshNoise)
  ⟨⟨stepped.1, ag.targetParams, ag.onlineNoise, freshNoise, stepped.2⟩,
    [(batch.idxs, lossSamples H net ag batch freshNoise)]⟩

/-- update_target_net, agent.py lines 118-119: the target net loads the
online net state dict. -/
def update_target_net {Par NZ O : Type} (ag : AgentState Par NZ O) :
    AgentState Par NZ O :=
  ⟨ag.onlineParams, ag.onlineParams, ag.onlineNoise, ag.targetNoise, ag.optState⟩

/-- C3: the bootstrap action is the argmax over actions of the online
expected value dns[b,a] = sum_i support[i] * pns[b,a,i], and pns_a is the
TARGET net distribution at exactly that action, evaluated with the freshly
resampled target noise. -/
theorem claim_C3_double_q_selection {Par NZ O S : Type} {nA B : ℕ}
    (H : Hyper) (net : NetModel Par NZ S nA H.A.atoms)
    (ag : AgentState Par NZ O) (batch : Batch B nA S) (freshNoise : NZ)
    (b : Fin B) :
    (∀ a, dns H net ag batch b a
        = ∑ i : Fin H.A.atoms, support H.A i
            * net.forward ag.onlineParams ag.onlineNoise (batch.next_states b) a i)
      ∧ (∀ a, dns H net ag batch b a
          ≤ dns H net ag batch b (argmax_indices_ns H net ag batch b))
      ∧ pns_a H net ag batch freshNoise b
          = net.forward ag.targetParams freshNoise (batch.next_states b)
              (argmax_indices_ns H net ag batch b) :=
  ⟨fun _ => rfl, fun a => argmaxFin_max (dns H net ag batch b) a, rfl⟩

/-- C4: the per-sample loss is the cross-entropy of the projected target
against the taken-action log-probabilities, and the backpropagated scalar
handed to the optimiser update is the importance-weighted mean. -/
theorem claim_C4_loss_is_weighted_cross_entropy {Par NZ O S : Type} {nA B : ℕ}
    (H : Hyper) (net : NetModel Par NZ S nA H.A.atoms)
    (gradUpdate : Par → O → ℚ → Par × O) (ag : AgentState Par NZ O)
    (batch : Batch B nA S) (freshNoise : NZ) :
    (∀ b, lossSamples H net ag batch freshNoise b
        = -∑ i : Fin H.A.atoms,
            projTargets H net ag batch freshNoise b i
              * net.logForward ag.onlineParams ag.onlineNoise (batch.states b)
                  (batch.actions b) i)
      ∧ lossObjective H net ag batch freshNoise
          = (∑ b : Fin B,
              batch.weights b * lossSamples H net ag batch freshNoise b) / (B : ℚ)
      ∧ (learn H net gradUpdate ag batch freshNoise).agent.onlineParams
          = (gradUpdate ag.onlineParams ag.optState
              (lossObjective H net ag batch freshNoise)).1
      ∧ (learn H net gradUpdate ag batch freshNoise).agent.optState
          = (gradUpdate ag.onlineParams ag.optState
              (lossObjective H net ag batch freshNoise)).2 :=
  ⟨fun _ => rfl, rfl, rfl, rfl⟩

/-- C6: after update_target_net the target parameters equal the online
parameters exactly, and the online parameters are unchanged. -/
theorem claim_C6_target_sync_copies_online {Par NZ O : Type}
    (ag : AgentState Par NZ O) :
    (update_target_net ag).targetParams = ag.onlineParams
      ∧ (update_target_net ag).onlineParams = ag.onlineParams :=
  ⟨rfl, rfl⟩

/-- C7: a learn call never changes the target parameters, whatever the
gradient update does: only update_target_net writes them. -/
theorem claim_C7_learn_preserves_target_params {Par NZ O S : Type} {nA B : ℕ}
    (H : Hyper) (net : NetModel Par NZ S nA H.A.atoms)
    (gradUpdate : Par → O → ℚ → Par × O) (ag : AgentState Par NZ O)
    (batch : Batch B nA S) (freshNoise : NZ) :
    (learn H net gradUpdate ag batch freshNoise).agent.targetParams
      = ag.targetParams :=
  rfl

/-- Rebuild a batch with different importance weights, all else equal. -/
def withWeights {B nA : ℕ} {S : Type} (batch : Batch B nA S)
    (w : Fin B → ℚ) : Batch B nA S :=
  ⟨batch.idxs, batch.states, batch.actions, batch.returns,
    batch.next_states, batch.nonterminals, w⟩

/-- C10: learn reports priorities through exactly one update_priorities
call carrying the batch idxs and the per-sample detached losses (not the
mean); they are non-negative whenever the projected target is non-negative
and the log-probabilities are non-positive; and the importance weights do
not affect the reported values. -/
theorem claim_C10_priority_feedback {Par NZ O S : Type} {nA B : ℕ}
    (H : Hyper) (net : NetModel Par NZ S nA H.A.atoms)
    (gradUpdate : Par → O → ℚ → Par × O) (ag : AgentState Par NZ O)
    (batch : Batch B nA S) (freshNoise : NZ)
    (hm : ∀ b i, 0 ≤ projTargets H net ag batch freshNoise b i)
    (hl : ∀ b i, log_ps_a net ag batch b i ≤ 0) :
    (learn H net gradUpdate ag batch freshNoise).priorityCalls
        = [(batch.idxs, lossSamples H net ag batch freshNoise)]
      ∧ (∀ b, 0 ≤ lossSamples H net ag batch freshNoise b)
      ∧ ∀ w : Fin B → ℚ,
          (learn H net gradUpdate ag (withWeights batch w) freshNoise).priorityCalls
            = (learn H net gradUpdate ag batch freshNoise).priorityCalls := by
  refine ⟨rfl, ?_, fun w => rfl⟩
  intro b
  rw [lossSamples, neg_nonneg]
  apply Finset.sum_nonpos
  intro i _
  have h1 := mul_nonneg (hm b i) (neg_nonneg.mpr (hl b i))
  nlinarith [h1]

/-- Concrete hyperparameters for the C10 witness: 2 atoms on [0, 1]. -/
abbrev w10H : Hyper := ⟨⟨2, 0, 1⟩, 1/2, 1⟩

/-- Concrete network: uniform probabilities, log-probabilities -1. -/
abbrev w10Net : NetModel Unit Unit Unit 0 2 :=
  ⟨fun _ _ _ _ _ => 1/2, fun _ _ _ _ _ => -1⟩

/-- Trivial gradient update on unit parameter spaces. -/
abbrev w10Grad : Unit → Unit → ℚ → Unit × Unit := fun _ _ _ => ((), ())

/-- Trivial agent state over unit parameter spaces. -/
abbrev w10Ag : AgentState Unit Unit Unit := ⟨(), (), (), (), ()⟩

/-- A one-sample nonterminal batch with returns 1/4. -/
abbrev w10Batch : Batch 1 0 Unit :=
  ⟨fun _ => 0, fun _ => (), fun _ => 0, fun _ => 1/4, fun _ => (),
    fun _ => 1, fun _ => 1⟩

/-- Witness for C10 on the concrete one-sample batch. -/
theorem claim_C10_priority_feedback_witness :
    (learn w10H w10Net w10Grad w10Ag w10Batch ()).priorityCalls
        = [(w10Batch.idxs, lossSamples w10H w10Net w10Ag w10Batch ())]
      ∧ 0 ≤ lossSamples w10H w10Net w10Ag w10Batch () 0 := by
  have hm : ∀ (b : Fin 1) (i : Fin 2),
      0 ≤ projTargets w10H w10Net w10Ag w10Batch () b i := by
    intro b i
    exact projRow_nonneg ⟨w10H.A, w10H.discount, w10H.multi_step,
        w10Batch.returns b, w10Batch.nonterminals b⟩
      (pns_a w10H w10Net w10Ag w10Batch () b)
      (fun j => by norm_num [pns_a, w10Net]) i
  have hl : ∀ (b : Fin 1) (i : Fin 2),
      log_ps_a w10Net w10Ag w10Batch b i ≤ 0 := by
    intro b i
    show (-1 : ℚ) ≤ 0
    norm_num
  have h := claim_C10_priority_feedback w10H w10Net w10Grad w10Ag w10Batch () hm hl
  exact ⟨h.1, h.2.1 0⟩

/-
Construction-time model loading (agent.py lines 28-43).  The deserialized
state dict is a Python dict: unique keys; subscript assignment replaces or
appends, del removes the key, reading a missing key raises KeyError.  The
loop over the literal tuple of legacy/new key pairs (lines 35-39) is
unrolled into its six iterations.
-/

/-- A serialized state dict: parameter name to tensor (abstracted as ℚ). -/
def StateDict : Type := List (String × ℚ)

/-- Dict lookup (first binding wins; a Python dict has unique keys). -/
def dictGet : StateDict → String → Option ℚ
  | [], _ => none
  | (k, v) :: rest, key => if k = key then some v else dictGet rest key

/-- Python dict subscript assignment: replace in place or append. -/
def dictSet : StateDict → String → ℚ → StateDict
  | [], key, v => [(key, v)]
  | (k, w) :: rest, key, v =>
      if k = key then (k, v) :: rest else (k, w) :: dictSet rest key v

/-- Python del of a key. -/
def dictDel : StateDict → String → StateDict
  | [], _ => []
  | (k, w) :: rest, key =>
      if k = key then dictDel rest key else (k, w) :: dictDel rest key

/-- Lookup after assignment. -/
theorem dictGet_set (k q : String) (v : ℚ) (d : StateDict) :
    dictGet (dictSet d k v) q = if q = k then some v else dictGet d q := by
  induction d with
  | nil =>
    by_cases h : q = k
    · subst h
      simp [dictSet, dictGet]
    · simp [dictSet, dictGet, h, Ne.symm h]
  | cons hd tl ih =>
    obtain ⟨hk, hv⟩ := hd
    by_cases h1 : hk = k
    · subst h1
      by_cases h2 : hk = q
      · subst h2
        simp [dictSet, dictGet]
      · simp [dictSet, dictGet, h2, Ne.symm h2]
    · by_cases h2 : hk = q
      · subst h2
        simp [dictSet, dictGet, h1]
      · simp [dictSet, dictGet, h1, h2, ih]

/-- Lookup after deletion. -/
theorem dictGet_del (k q : String) (d : StateDict) :
    dictGet (dictDel d k) q = if q = k then none else dictGet d q := by
  induction d with
  | nil =>
    simp [dictDel, dictGet]
  | cons hd tl ih =>
    obtain ⟨hk, hv⟩ := hd
    by_cases h1 : hk = k
    · subst h1
      by_cases h2 : q = hk
      · subst h2
        simp [dictDel, dictGet, ih]
      · simp [dictDel, dictGet, ih, h2, Ne.symm h2]
    · by_cases h2 : hk = q
      · subst h2
        simp [dictDel, dictGet, h1]
      · simp [dictDel, dictGet, h1, h2, ih]

/-- The legacy key conv1.weight of the documented naming scheme. -/
def conv1_weight : String := "conv1.weight"

/-- The legacy key conv1.bias. -/
def conv1_bias : String := "conv1.bias"

/-- The legacy key conv2.weight. -/
def conv2_weight : String := "conv2.weight"

/-- The legacy key conv2.bias. -/
def conv2_bias : String := "conv2.bias"

/-- The legacy key conv3.weight. -/
def conv3_weight : String := "conv3.weight"

/-- The legacy key conv3.bias. -/
def conv3_bias : String := "conv3.bias"

/-- The new key convs.0.weight. -/
def convs0_weight : String := "convs.0.weight"

/-- The new key convs.0.bias. -/
def convs0_bias : String := "convs.0.bias"

/-- The new key convs.2.weight. -/
def convs2_weight : String := "convs.2.weight"

/-- The new key convs.2.bias. -/
def convs2_bias : String := "convs.2.bias"

/-- The new key convs.4.weight. -/
def convs4_weight : String := "convs.4.weight"

/-- The new key convs.4.bias. -/
def convs4_bias : String := "convs.4.bias"

/-- One loop iteration body when the old key is present:
state_dict[new_key] = state_dict[old_key]; del state_dict[old_key]
(agent.py lines 38-39). -/
def remapStep (d : StateDict) (old nw : String) (v : ℚ) : StateDict :=
  dictDel (dictSet d nw v) old

/-- One loop iteration of agent.py lines 35-39: reading a missing old key
raises KeyError, as Python subscripting does. -/
def remapOne (d : StateDict) (old nw : String) : Except String StateDict :=
  match dictGet d old with
  | some v => Except.ok (remapStep d old nw v)
  | none => Except.error old

/-- The remapping block of agent.py lines 34-39: triggered when
conv1.weight is present, iterating the six literal key pairs in order;
a raised KeyError propagates out. -/
def remapLegacy (d : StateDict) : Except String StateDict :=
  if (dictGet d conv1_weight).isSome then
    match remapOne d conv1_weight convs0_weight with
    | Except.error e => Except.error e
    | Except.ok d1 =>
      match remapOne d1 conv1_bias convs0_bias with
      | Except.error e => Except.error e
      | Except.ok d2 =>
        match remapOne d2 conv2_weight convs2_weight with
        | Except.error e => Except.error e
        | Except.ok d3 =>
          match remapOne d3 conv2_bias convs2_bias with
          | Except.error e => Except.error e
          | Except.ok d4 =>
            match remapOne d4 conv3_weight convs4_weight with
            | Except.error e => Except.error e
            | Except.ok d5 => remapOne d5 conv3_bias convs4_bias
  else Except.ok d

/-- Lookup through one remap step. -/
theorem dictGet_remapStep (d : StateDict) (old nw q : String) (v : ℚ) :
    dictGet (remapStep d old nw v) q
      = if q = old then none else if q = nw then some v else dictGet d q := by
  rw [remapStep, dictGet_del, dictGet_set]

/-- The state dict after the six unrolled remap iterations succeed, with
v1..v6 the values found under the six legacy keys. -/
def remapResult (d : StateDict) (v1 v2 v3 v4 v5 v6 : ℚ) : StateDict :=
  remapStep (remapStep (remapStep (remapStep (remapStep (remapStep d
    conv1_weight convs0_weight v1)
    conv1_bias convs0_bias v2)
    conv2_weight convs2_weight v3)
    conv2_bias convs2_bias v4)
    conv3_weight convs4_weight v5)
    conv3_bias convs4_bias v6

/-- C9: when conv1.weight is present (and the state dict carries the full
documented legacy scheme), the remap block succeeds, every legacy key is
consumed and deleted, and each new key holds the old key value: no
legacy-named entry remains and old/new names are never both present. -/
theorem claim_C9_legacy_remap_consumes_old_keys (d : StateDict)
    (v1 v2 v3 v4 v5 v6 : ℚ)
    (h1 : dictGet d conv1_weight = some v1)
    (h2 : dictGet d conv1_bias = some v2)
    (h3 : dictGet d conv2_weight = some v3)
    (h4 : dictGet d conv2_bias = some v4)
    (h5 : dictGet d conv3_weight = some v5)
    (h6 : dictGet d conv3_bias = some v6) :
    remapLegacy d = Except.ok (remapResult d v1 v2 v3 v4 v5 v6)
      ∧ (dictGet (remapResult d v1 v2 v3 v4 v5 v6) conv1_weight = none
        ∧ dictGet (remapResult d v1 v2 v3 v4 v5 v6) conv1_bias = none
        ∧ dictGet (remapResult d v1 v2 v3 v4 v5 v6) conv2_weight = none
        ∧ dictGet (remapResult d v1 v2 v3 v4 v5 v6) conv2_bias = none
        ∧ dictGet (remapResult d v1 v2 v3 v4 v5 v6) conv3_weight = none
        ∧ dictGet (remapResult d v1 v2 v3 v4 v5 v6) conv3_bias = none)
      ∧ (dictGet (remapResult d v1 v2 v3 v4 v5 v6) convs0_weight = some v1
        ∧ dictGet (remapResult d v1 v2 v3 v4 v5 v6) convs0_bias = some v2
        ∧ dictGet (remapResult d v1 v2 v3 v4 v5 v6) convs2_weight = some v3
        ∧ dictGet (remapResult d v1 v2 v3 v4 v5 v6) convs2_bias = some v4
        ∧ dictGet (remapResult d v1 v2 v3 v4 v5 v6) convs4_weight = some v5
        ∧ dictGet (remapResult d v1 v2 v3 v4 v5 v6) convs4_bias = some v6) := by
  have s1 : remapOne d conv1_weight convs0_weight
      = Except.ok (remapStep d conv1_weight convs0_weight v1) := by
    unfold remapOne
    rw [h1]
  have g2 : dictGet (remapStep d conv1_weight convs0_weight v1) conv1_bias
      = some v2 := by
    rw [dictGet_remapStep, if_neg (by decide), if_neg (by decide), h2]
  have s2 : remapOne (remapStep d conv1_weight convs0_weight v1)
        conv1_bias convs0_bias
      = Except.ok (remapStep (remapStep d conv1_weight convs0_weight v1)
          conv1_bias convs0_bias v2) := by
    unfold remapOne
    rw [g2]
  have g3 : dictGet (remapStep (remapStep d conv1_weight convs0_weight v1)
        conv1_bias convs0_bias v2) conv2_weight = some v3 := by
    rw [dictGet_remapStep, if_neg (by decide), if_neg (by decide),
      dictGet_remapStep, if_neg (by decide), if_neg (by decide), h3]
  have s3 : remapOne (remapStep (remapStep d conv1_weight convs0_weight v1)
        conv1_bias convs0_bias v2) conv2_weight convs2_weight
      = Except.ok (remapStep (remapStep (remapStep d
          conv1_weight convs0_weight v1) conv1_bias convs0_bias v2)
          conv2_weight convs2_weight v3) := by
    unfold remapOne
    rw [g3]
  have g4 : dictGet (remapStep (remapStep (remapStep d
        conv1_weight convs0_weight v1) conv1_bias convs0_bias v2)
        conv2_weight convs2_weight v3) conv2_bias = some v4 := by
    rw [dictGet_remapStep, if_neg (by decide), if_neg (by decide),
      dictGet_remapStep, if_neg (by decide), if_neg (by decide),
      dictGet_remapStep, if_neg (by decide), if_neg (by decide), h4]
  have s4 : remapOne (remapStep (remapStep (remapStep d
        conv1_weight convs0_weight v1) conv1_bias convs0_bias v2)
        conv2_weight convs2_weight v3) conv2_bias convs2_bias
      = Except.ok (remapStep (remapStep (remapStep (remapStep d
          conv1_weight convs0_weight v1) conv1_bias convs0_bias v2)
          conv2_weight convs2_weight v3) conv2_bias convs2_bias v4) := by
    unfold remapOne
    rw [g4]
  have g5 : dictGet (remapStep (remapStep (remapStep (remapStep d
        conv1_weight convs0_weight v1) conv1_bias convs0_bias v2)
        conv2_weight convs2_weight v3) conv2_bias convs2_bias v4)
        conv3_weight = some v5 := by
    rw [dictGet_remapStep, if_neg (by decide), if_neg (by decide),
      dictGet_remapStep, if_neg (by decide), if_neg (by decide),
      dictGet_remapStep, if_neg (by decide), if_neg (by decide),
      dictGet_remapStep, if_neg (by decide), if_neg (by decide), h5]
  have s5 : remapOne (remapStep (remapStep (remapStep (remapStep d
        conv1_weight convs0_weight v1) conv1_bias convs0_bias v2)
        conv2_weight convs2_weight v3) conv2_bias convs2_bias v4)
        conv3_weight convs4_weight
      = Except.ok (remapStep (remapStep (remapStep (remapStep (remapStep d
          conv1_weight convs0_weight v1) conv1_bias convs0_bias v2)
          conv2_weight convs2_weight v3) conv2_bias convs2_bias v4)
          conv3_weight convs4_weight v5) := by
    unfold remapOne
    rw [g5]
  have g6 : dictGet (remapStep (remapStep (remapStep (remapStep (remapStep d
        conv1_weight convs0_weight v1) conv1_bias convs0_bias v2)
        conv2_weight convs2_weight v3) conv2_bias convs2_bias v4)
        conv3_weight convs4_weight v5) conv3_bias = some v6 := by
    rw [dictGet_remapStep, if_neg (by decide), if_neg (by decide),
      dictGet_remapStep, if_neg (by decide), if_neg (by decide),
      dictGet_remapStep, if_neg (by decide), if_neg (by decide),
      dictGet_remapStep, if_neg (by decide), if_neg (by decide),
      dictGet_remapStep, if_neg (by decide), if_neg (by decide), h6]
  have s6 : remapOne (remapStep (remapStep (remapStep (remapStep (remapStep d
        conv1_weight convs0_weight v1) conv1_bias convs0_bias v2)
        conv2_weight convs2_weight v3) conv2_bias convs2_bias v4)
        conv3_weight convs4_weight v5) conv3_bias convs4_bias
      = Except.ok (remapResult d v1 v2 v3 v4 v5 v6) := by
    unfold remapOne remapResult
    rw [g6]
  have hok : remapLegacy d = Except.ok (remapResult d v1 v2 v3 v4 v5 v6) := by
    simp only [remapLegacy, h1, Option.isSome_some, if_true, s1, s2, s3, s4, s5, s6]
  refine ⟨hok, ⟨?_, ?_, ?_, ?_, ?_, ?_⟩, ⟨?_, ?_, ?_, ?_, ?_, ?_⟩⟩ <;>
    simp [remapResult, dictGet_remapStep, conv1_weight, conv1_bias,
      conv2_weight, conv2_bias, conv3_weight, conv3_bias, convs0_weight,
      convs0_bias, convs2_weight, convs2_bias, convs4_weight, convs4_bias]

/-- A concrete legacy state dict instantiating C9. -/
def w9dict : StateDict :=
  [(conv1_weight, 1), (conv1_bias, 2), (conv2_weight, 3),
   (conv2_bias, 4), (conv3_weight, 5), (conv3_bias, 6)]

/-- Witness for C9: the concrete legacy dict remaps successfully, the
renamed conv1.weight is gone and convs.0.weight holds its value. -/
theorem claim_C9_legacy_remap_consumes_old_keys_witness :
    remapLegacy w9dict = Except.ok (remapResult w9dict 1 2 3 4 5 6)
      ∧ dictGet (remapResult w9dict 1 2 3 4 5 6) conv1_weight = none
      ∧ dictGet (remapResult w9dict 1 2 3 4 5 6) convs0_weight = some 1 := by
  have h := claim_C9_legacy_remap_consumes_old_keys w9dict 1 2 3 4 5 6
    (by decide) (by decide) (by decide) (by decide) (by decide) (by decide)
  exact ⟨h.1, h.2.1.1, h.2.2.1⟩

/-- The path separator used by pathlib joinpath. -/
def sepStr : String := "/"

/-- results_dir.joinpath(args.model), agent.py line 29. -/
def joinPath (base nm : String) : String := base ++ sepStr ++ nm

/-- The fatal construction errors: a missing model file raises
FileNotFoundError(model_file) (agent.py line 43); a KeyError from the remap
loop propagates out of __init__. -/
inductive InitErr where
  | fileNotFound (path : String)
  | keyError (key : String)

/-- The two parameter sets owned after construction: online_net (line 26,
possibly overwritten by load_state_dict at line 40) and target_net, a copy
of the online parameters made by update_target_net at line 47. -/
structure BuiltAgent where
  online_net : StateDict
  target_net : StateDict

/-- Agent.__init__ restricted to parameter loading (agent.py lines 26-47):
with no model argument the fresh parameters stand; with one, the resolved
file is loaded and remapped, or construction fails with FileNotFoundError
naming the resolved path (line 43). -/
def agentInit (files : String → Option StateDict) (initParams : StateDict)
    (results_dir : String) (model : Option String) : Except InitErr BuiltAgent :=
  match model with
  | none => Except.ok ⟨initParams, initParams⟩
  | some nm =>
    match files (joinPath results_dir nm) with
    | some sd =>
      match remapLegacy sd with
      | Except.ok sd2 => Except.ok ⟨sd2, sd2⟩
      | Except.error k => Except.error (InitErr.keyError k)
    | none => Except.error (InitErr.fileNotFound (joinPath results_dir nm))

/-- C8: when a model name is supplied and the resolved file is absent,
construction returns the distinct file-not-found error carrying the
resolved path, and never a built agent. -/
theorem claim_C8_missing_model_file_fatal (files : String → Option StateDict)
    (initParams : StateDict) (results_dir nm : String)
    (hmiss : files (joinPath results_dir nm) = none) :
    agentInit files initParams results_dir (some nm)
      = Except.error (InitErr.fileNotFound (joinPath results_dir nm)) := by
  simp only [agentInit]
  rw [hmiss]

/-- An empty filesystem for the C8 witness. -/
def w8files : String → Option StateDict := fun _ => none

/-- The results directory of the C8 witness. -/
def w8dir : String := "results"

/-- The model filename of the C8 witness. -/
def w8name : String := "model.pth"

/-- Witness for C8: constructing against an empty filesystem fails with
fileNotFound at the joined path. -/
theorem claim_C8_missing_model_file_fatal_witness :
    agentInit w8files [] w8dir (some w8name)
      = Except.error (InitErr.fileNotFound (joinPath w8dir w8name)) :=
  claim_C8_missing_model_file_fatal w8files [] w8dir w8name rfl

end RainbowAgent
